import Mathlib

/-!
Verification development for the `regexp_extract` DataFusion UDF
(`src/src/lib.rs`).

The Rust source has two layers:

* `regexp_extract(input : &StringArray, pattern : &str, group_index : usize)`:
  compiles `pattern` with `Regex::new`, then maps over the optional rows of
  `input`, producing for each present row
  `re.captures(data).and_then(|c| c.get(group_index)).map(|m| m.as_str().to_string()).unwrap_or_default()`.
* `create_regexp_extract()`: wraps the above as a DataFusion `ScalarUDF` with
  declared signature `(Utf8, Utf8, UInt32) -> Utf8`, volatility `Immutable`,
  whose implementation closure checks the runtime shapes of the three
  `ColumnarValue` arguments.

The `regex` crate is an external dependency; we embed the subset of its
behaviour the program exercises as an executable leftmost-first backtracking
matcher with numbered capture groups (greedy repetition, alternation,
character classes, `\d`/`\w`/`\s` escapes, `.`).  Structural fuel keeps every
definition computable by kernel reduction.
-/

/-- One item of a bracket character class `[...]`: a single character or an
inclusive range. -/
inductive ClsItem where
  | single (c : Char)
  | range (lo hi : Char)
deriving Repr, DecidableEq

/-- Abstract syntax of the supported regular-expression subset, mirroring the
`regex` crate's parsed form for the patterns this program uses.  `group n e`
is the `n`-th capturing group (numbered from 1 in order of opening
parenthesis). -/
inductive Regex where
  | eps
  | cls (neg : Bool) (items : List ClsItem)
  | anyc
  | concat (e1 e2 : Regex)
  | alt (e1 e2 : Regex)
  | star (e : Regex)
  | plus (e : Regex)
  | opt (e : Regex)
  | group (n : Nat) (e : Regex)
deriving Repr, DecidableEq

/-- Character-class membership test (`[...]`, with `neg` for `[^...]`). -/
def clsTest (neg : Bool) (items : List ClsItem) (c : Char) : Bool :=
  let m := items.any fun it =>
    match it with
    | ClsItem.single d => c == d
    | ClsItem.range lo hi => decide (lo.toNat ≤ c.toNat) && decide (c.toNat ≤ hi.toNat)
  if neg then !m else m

/-- Largest capture-group number occurring in a regex (0 when there is none).
The parser numbers groups consecutively from 1, so for parsed patterns this is
also the number of capture groups. -/
def Regex.maxGroup : Regex → Nat
  | Regex.eps => 0
  | Regex.cls _ _ => 0
  | Regex.anyc => 0
  | Regex.concat e1 e2 => max e1.maxGroup e2.maxGroup
  | Regex.alt e1 e2 => max e1.maxGroup e2.maxGroup
  | Regex.star e => e.maxGroup
  | Regex.plus e => e.maxGroup
  | Regex.opt e => e.maxGroup
  | Regex.group n e => max n e.maxGroup

/-- Capture slots recorded during matching: `(group number, start, stop)`
offsets into the subject, most recent first (lookup takes the first hit, so a
later write to the same group shadows an earlier one, as in the `regex`
crate). -/
abbrev Slots := List (Nat × Nat × Nat)

/-- Backtracking matcher in continuation-passing style, embedding the `regex`
crate's leftmost-first (preference-order) semantics: alternation prefers its
left branch, repetition is greedy, and a `star` iteration must consume at
least one character (ruling out empty-match loops).  `mre fuel e s pos slots k`
tries to match `e` in subject `s` starting at `pos`; on success of a branch it
calls `k` with the end position and updated slots, and backtracks while `k`
returns `none`.  The fuel only bounds the static nesting depth of the search
and is chosen large enough by `searchAt`. -/
def mre : Nat → Regex → List Char → Nat → Slots →
    (Nat → Slots → Option (Nat × Slots)) → Option (Nat × Slots)
  | 0, _, _, _, _, _ => none
  | _ + 1, Regex.eps, _, pos, slots, k => k pos slots
  | _ + 1, Regex.cls neg items, s, pos, slots, k =>
    match s.get? pos with
    | some c => if clsTest neg items c then k (pos + 1) slots else none
    | none => none
  | _ + 1, Regex.anyc, s, pos, slots, k =>
    match s.get? pos with
    | some c => if c == '\n' then none else k (pos + 1) slots
    | none => none
  | fuel + 1, Regex.concat e1 e2, s, pos, slots, k =>
    mre fuel e1 s pos slots fun p' sl' => mre fuel e2 s p' sl' k
  | fuel + 1, Regex.alt e1 e2, s, pos, slots, k =>
    match mre fuel e1 s pos slots k with
    | some r => some r
    | none => mre fuel e2 s pos slots k
  | fuel + 1, Regex.star e1, s, pos, slots, k =>
    match mre fuel e1 s pos slots
        (fun p' sl' => if pos < p' then mre fuel (Regex.star e1) s p' sl' k else none) with
    | some r => some r
    | none => k pos slots
  | fuel + 1, Regex.plus e1, s, pos, slots, k =>
    mre fuel e1 s pos slots fun p' sl' => mre fuel (Regex.star e1) s p' sl' k
  | fuel + 1, Regex.opt e1, s, pos, slots, k =>
    match mre fuel e1 s pos slots k with
    | some r => some r
    | none => k pos slots
  | fuel + 1, Regex.group n e1, s, pos, slots, k =>
    mre fuel e1 s pos slots fun p' sl' => k p' ((n, pos, p') :: sl')

/-- Static-nesting-depth bound used as fuel for `mre`: enough for matching `e`
against a subject with `n` characters remaining. -/
def Regex.fuelBound : Regex → Nat → Nat
  | Regex.eps, _ => 1
  | Regex.cls _ _, _ => 1
  | Regex.anyc, _ => 1
  | Regex.concat e1 e2, n => 1 + max (e1.fuelBound n) (e2.fuelBound n)
  | Regex.alt e1 e2, n => 1 + max (e1.fuelBound n) (e2.fuelBound n)
  | Regex.star e1, n => 1 + (n + 1) * (1 + e1.fuelBound n)
  | Regex.plus e1, n => 2 + e1.fuelBound n + (n + 1) * (1 + e1.fuelBound n)
  | Regex.opt e1, n => 1 + e1.fuelBound n
  | Regex.group _ e1, n => 1 + e1.fuelBound n

/-- Anchored attempt: match `re` at start position `st` of `s`, returning the
end position and capture slots of the preferred (leftmost-first) match. -/
def searchAt (re : Regex) (s : List Char) (st : Nat) : Option (Nat × Slots) :=
  mre (re.fuelBound s.length + 1) re s st [] fun p sl => some (p, sl)

/-- Result of a successful unanchored search, mirroring the `regex` crate's
`Captures`: overall match span plus the capture slots. -/
structure Captures where
  start : Nat
  stop : Nat
  slots : Slots
deriving Repr, DecidableEq

/-- Substring of `cs` between offsets `a` (inclusive) and `b` (exclusive), as
a `String` (the model of `Match::as_str().to_string()`). -/
def strSlice (cs : List Char) (a b : Nat) : String :=
  String.mk ((cs.drop a).take (b - a))

/-- Model of `Captures::get`: group 0 is the whole match; a positive group
number resolves through the recorded slots and is `none` when the group did
not participate in the match (or does not exist). -/
def Captures.get (caps : Captures) (cs : List Char) (i : Nat) : Option String :=
  if i = 0 then some (strSlice cs caps.start caps.stop)
  else (caps.slots.lookup i).map fun p => strSlice cs p.1 p.2

/-- Unanchored search scanning candidate start positions left to right;
`rem` counts the positions still to try. -/
def searchFrom (re : Regex) (cs : List Char) : Nat → Nat → Option Captures
  | 0, _ => none
  | rem + 1, st =>
    match searchAt re cs st with
    | some (en, sl) => some ⟨st, en, sl⟩
    | none => searchFrom re cs rem (st + 1)

/-- Model of `Regex::captures`: the leftmost match of `re` in `v`, if any. -/
def captures (re : Regex) (v : String) : Option Captures :=
  searchFrom re v.data (v.data.length + 1) 0

/-! ### Pattern parser (model of `Regex::new` on the supported subset) -/

/-- Parse the body of a bracket class after the optional `^`, up to the
closing `]`.  A `-` immediately before `]` is a literal, as in the `regex`
crate. -/
def parseClassItems : List Char → Except String (List ClsItem × List Char)
  | [] => Except.error "unclosed character class"
  | ']' :: rest => Except.ok ([], rest)
  | '\\' :: _ => Except.error "escape inside character class is not supported"
  | a :: '-' :: ']' :: rest => Except.ok ([ClsItem.single a, ClsItem.single '-'], rest)
  | a :: '-' :: b :: rest =>
    if b == '\\' then Except.error "escape inside character class is not supported"
    else if a.toNat ≤ b.toNat then
      match parseClassItems rest with
      | Except.ok (items, rest') => Except.ok (ClsItem.range a b :: items, rest')
      | Except.error e => Except.error e
    else Except.error "invalid character class range"
  | a :: rest =>
    match parseClassItems rest with
    | Except.ok (items, rest') => Except.ok (ClsItem.single a :: items, rest')
    | Except.error e => Except.error e

/-- Parse a bracket class starting right after `[`. -/
def parseClass (cs : List Char) : Except String (Bool × List ClsItem × List Char) :=
  match cs with
  | '^' :: rest =>
    match parseClassItems rest with
    | Except.ok (items, rest') => Except.ok (true, items, rest')
    | Except.error e => Except.error e
  | _ =>
    match parseClassItems cs with
    | Except.ok (items, rest') => Except.ok (false, items, rest')
    | Except.error e => Except.error e

/-- Translate an escape sequence `\c` into a regex atom. -/
def escapeAtom (c : Char) : Except String Regex :=
  if c == 'd' then Except.ok (Regex.cls false [ClsItem.range '0' '9'])
  else if c == 'w' then
    Except.ok (Regex.cls false
      [ClsItem.range 'a' 'z', ClsItem.range 'A' 'Z', ClsItem.range '0' '9', ClsItem.single '_'])
  else if c == 's' then
    Except.ok (Regex.cls false
      [ClsItem.single ' ', ClsItem.single '\t', ClsItem.single '\n', ClsItem.single '\x0d'])
  else if c == 'n' then Except.ok (Regex.cls false [ClsItem.single '\n'])
  else if c == 't' then Except.ok (Regex.cls false [ClsItem.single '\t'])
  else if ['\\', '.', '(', ')', '[', ']', '{', '}', '*', '+', '?', '|', '-', '^', '$', '/'].contains c then
    Except.ok (Regex.cls false [ClsItem.single c])
  else Except.error "unsupported escape"

/-- Apply at most one postfix repetition operator to a parsed atom.  A second
adjacent repetition operator (including the lazy-mode `?`) is outside the
supported subset and rejected. -/
def applyPost (r : Regex) (cs : List Char) : Except String (Regex × List Char) :=
  match cs with
  | '*' :: rest =>
    if rest.head? ∈ [some '*', some '+', some '?'] then Except.error "unsupported repetition"
    else Except.ok (Regex.star r, rest)
  | '+' :: rest =>
    if rest.head? ∈ [some '*', some '+', some '?'] then Except.error "unsupported repetition"
    else Except.ok (Regex.plus r, rest)
  | '?' :: rest =>
    if rest.head? ∈ [some '*', some '+', some '?'] then Except.error "unsupported repetition"
    else Except.ok (Regex.opt r, rest)
  | _ => Except.ok (r, cs)

/-- Concatenation smart constructor: drop a trailing empty regex. -/
def mkCat (r1 r2 : Regex) : Regex :=
  match r2 with
  | Regex.eps => r1
  | _ => Regex.concat r1 r2

/-- Nonterminal selector for the recursive-descent parser: alternation level,
concatenation level, single atom. -/
inductive PMode where
  | alt
  | cat
  | atom

/-- Recursive-descent parser for the supported pattern subset.  The state is
`(remaining characters, highest capture-group number allocated so far)`; a
successful parse returns the regex, the unconsumed input, and the updated
group counter.  Fuel is structural; `Regex.new` supplies enough for any
input. -/
def parseR : Nat → PMode → List Char → Nat → Except String (Regex × List Char × Nat)
  | 0, _, _, _ => Except.error "pattern too deeply nested"
  | fuel + 1, PMode.alt, cs, ctr =>
    match parseR fuel PMode.cat cs ctr with
    | Except.error e => Except.error e
    | Except.ok (r1, cs1, c1) =>
      match cs1 with
      | '|' :: rest =>
        match parseR fuel PMode.alt rest c1 with
        | Except.error e => Except.error e
        | Except.ok (r2, cs2, c2) => Except.ok (Regex.alt r1 r2, cs2, c2)
      | _ => Except.ok (r1, cs1, c1)
  | fuel + 1, PMode.cat, cs, ctr =>
    match cs with
    | [] => Except.ok (Regex.eps, [], ctr)
    | ')' :: _ => Except.ok (Regex.eps, cs, ctr)
    | '|' :: _ => Except.ok (Regex.eps, cs, ctr)
    | _ =>
      match parseR fuel PMode.atom cs ctr with
      | Except.error e => Except.error e
      | Except.ok (r1, cs1, c1) =>
        match applyPost r1 cs1 with
        | Except.error e => Except.error e
        | Except.ok (r1', cs1') =>
          match parseR fuel PMode.cat cs1' c1 with
          | Except.error e => Except.error e
          | Except.ok (r2, cs2, c2) => Except.ok (mkCat r1' r2, cs2, c2)
  | fuel + 1, PMode.atom, cs, ctr =>
    match cs with
    | [] => Except.error "expected atom"
    | '(' :: rest =>
      match parseR fuel PMode.alt rest (ctr + 1) with
      | Except.error e => Except.error e
      | Except.ok (r, cs1, c1) =>
        match cs1 with
        | ')' :: rest2 => Except.ok (Regex.group (ctr + 1) r, rest2, c1)
        | _ => Except.error "unclosed group"
    | '[' :: rest =>
      match parseClass rest with
      | Except.error e => Except.error e
      | Except.ok (neg, items, rest') => Except.ok (Regex.cls neg items, rest', ctr)
    | '\\' :: [] => Except.error "trailing backslash"
    | '\\' :: c :: rest =>
      match escapeAtom c with
      | Except.error e => Except.error e
      | Except.ok r => Except.ok (r, rest, ctr)
    | '.' :: rest => Except.ok (Regex.anyc, rest, ctr)
    | ')' :: _ => Except.error "unexpected close parenthesis"
    | '|' :: _ => Except.error "unexpected alternation"
    | '*' :: _ => Except.error "repetition operator missing expression"
    | '+' :: _ => Except.error "repetition operator missing expression"
    | '?' :: _ => Except.error "repetition operator missing expression"
    | '{' :: _ => Except.error "unsupported counted repetition"
    | '^' :: _ => Except.error "unsupported anchor"
    | '$' :: _ => Except.error "unsupported anchor"
    | c :: rest => Except.ok (Regex.cls false [ClsItem.single c], rest, ctr)

/-- Model of `Regex::new`: parse the whole pattern or report a compilation
error. -/
def Regex.new (pattern : String) : Except String Regex :=
  let cs := pattern.data
  match parseR (3 * cs.length + 8) PMode.alt cs 0 with
  | Except.error e => Except.error e
  | Except.ok (r, [], _) => Except.ok r
  | Except.ok (_, _, _) => Except.error "unexpected trailing characters"

/-! ### The per-row extraction and the column operation (`regexp_extract`) -/

/-- Per-row extraction performed by the closure inside `regexp_extract`:
`re.captures(data).and_then(|c| c.get(group_index)).map(|m| m.as_str().to_string()).unwrap_or_default()`. -/
def extractRow (re : Regex) (group_index : Nat) (data : String) : String :=
  (((captures re data).bind fun caps => caps.get data.data group_index)).getD ""

/-- Model of `regexp_extract` from `src/src/lib.rs`: compile the pattern (an
error aborts the call), then map the per-row extraction over the optional
rows of the input column. -/
def regexp_extract (input : List (Option String)) (pattern : String) (group_index : Nat) :
    Except String (List (Option String)) :=
  match Regex.new pattern with
  | Except.error e => Except.error e
  | Except.ok re =>
    Except.ok (input.map fun optional_data => optional_data.map fun data => extractRow re group_index data)

/-! ### The DataFusion adapter (`create_regexp_extract`) -/

/-- Arrow data types appearing at the UDF boundary. -/
inductive DataType where
  | utf8
  | uint32
  | other (name : String)
deriving Repr, DecidableEq

/-- Arrow arrays at the UDF boundary: either a string array (with per-row
null mask, as `Option` rows) or an array of some other data type, which the
`downcast_ref::<StringArray>` in the source rejects. -/
inductive ArrowArray where
  | strings (rows : List (Option String))
  | other (dt : DataType)
deriving Repr, DecidableEq

/-- DataFusion scalar values of the shapes the source inspects: `Utf8`,
`UInt32` (each possibly null), or a scalar of some other data type. -/
inductive ScalarValue where
  | utf8 (s : Option String)
  | uint32 (n : Option Nat)
  | other (dt : DataType)
deriving Repr, DecidableEq

/-- A `ColumnarValue` argument: a whole array or a single scalar. -/
inductive ColumnarValue where
  | array (a : ArrowArray)
  | scalar (v : ScalarValue)
deriving Repr, DecidableEq

/-- Data type of an Arrow array. -/
def ArrowArray.dataType : ArrowArray → DataType
  | ArrowArray.strings _ => DataType.utf8
  | ArrowArray.other dt => dt

/-- Data type of a scalar value. -/
def ScalarValue.dataType : ScalarValue → DataType
  | ScalarValue.utf8 _ => DataType.utf8
  | ScalarValue.uint32 _ => DataType.uint32
  | ScalarValue.other dt => dt

/-- Data type of a columnar value. -/
def ColumnarValue.dataType : ColumnarValue → DataType
  | ColumnarValue.array a => a.dataType
  | ColumnarValue.scalar v => v.dataType

/-- Model of `arr.as_any().downcast_ref::<StringArray>()`. -/
def downcastStringArray : ArrowArray → Option (List (Option String))
  | ArrowArray.strings rows => some rows
  | ArrowArray.other _ => none

/-- The UDF implementation closure from `create_regexp_extract`, argument
checks in source order: `args[0]` must be an array downcasting to a string
array, `args[1]` a non-null `Utf8` scalar, `args[2]` a non-null `UInt32`
scalar.  Indexing past the end of the slice panics in Rust; the model reports
it as the distinguished error `"index out of bounds"` (the host's exact
signature makes that branch unreachable). -/
def regexp_extract_impl (args : List ColumnarValue) : Except String ColumnarValue :=
  match args.get? 0 with
  | some (ColumnarValue.array arr) =>
    match downcastStringArray arr with
    | some input =>
      match args.get? 1 with
      | some (ColumnarValue.scalar (ScalarValue.utf8 (some pattern))) =>
        match args.get? 2 with
        | some (ColumnarValue.scalar (ScalarValue.uint32 (some group_index))) =>
          match regexp_extract input pattern group_index with
          | Except.ok rows => Except.ok (ColumnarValue.array (ArrowArray.strings rows))
          | Except.error e => Except.error e
        | some _ => Except.error "Expected UInt32"
        | none => Except.error "index out of bounds"
      | some _ => Except.error "Expected pattern string"
      | none => Except.error "index out of bounds"
    | none => Except.error "Expected StringArray"
  | some _ => Except.error "Expected StringArray"
  | none => Except.error "index out of bounds"

/-- Function volatility classes of DataFusion. -/
inductive Volatility where
  | immutable
  | stable
  | volatile
deriving Repr, DecidableEq

/-- A registered scalar UDF: name, declared exact signature, return type,
volatility, and the implementation closure. -/
structure ScalarUDF where
  name : String
  input_types : List DataType
  return_type : DataType
  volatility : Volatility
  impl : List ColumnarValue → Except String ColumnarValue

/-- Model of `create_regexp_extract`: registers `regexp_extract_impl` under
the exact signature `(Utf8, Utf8, UInt32) -> Utf8` with immutable
volatility. -/
def create_regexp_extract : ScalarUDF :=
  { name := "regexp_extract"
    input_types := [DataType.utf8, DataType.utf8, DataType.uint32]
    return_type := DataType.utf8
    volatility := Volatility.immutable
    impl := regexp_extract_impl }

/-- Modelled from the spec: the host query engine's function-registration and
invocation mechanism (spec section 6, out of scope of the source under
`src/`) checks the supplied arguments against the UDF's declared exact
signature — arity and per-position data types — before invoking the
implementation closure, and surfaces any mismatch as an error with no row
processed. -/
def invokeUDF (udf : ScalarUDF) (args : List ColumnarValue) : Except String ColumnarValue :=
  if args.map ColumnarValue.dataType = udf.input_types then udf.impl args
  else Except.error "arguments do not match the declared function signature"

/-! ### Helper lemmas -/

/-- Unfolding `regexp_extract` when pattern compilation succeeds. -/
lemma regexp_extract_eq_ok (input : List (Option String)) (pattern : String) (gi : Nat)
    (re : Regex) (hre : Regex.new pattern = Except.ok re) :
    regexp_extract input pattern gi =
      Except.ok (input.map fun optional_data => optional_data.map fun d => extractRow re gi d) := by
  unfold regexp_extract
  rw [hre]

/-- Unfolding `regexp_extract` when pattern compilation fails. -/
lemma regexp_extract_eq_error (input : List (Option String)) (pattern : String) (gi : Nat)
    (e : String) (hre : Regex.new pattern = Except.error e) :
    regexp_extract input pattern gi = Except.error e := by
  unfold regexp_extract
  rw [hre]

/-! ### Claim theorems -/

/-- C1: whenever pattern compilation succeeds, `regexp_extract` returns an
output column of the same length as the input column, and a row of the output
is null exactly when the corresponding input row is null. -/
theorem regexp_extract_preserves_length_and_nulls
    (input : List (Option String)) (pattern : String) (gi : Nat)
    (out : List (Option String))
    (h : regexp_extract input pattern gi = Except.ok out) :
    out.length = input.length ∧
      ∀ i : Nat, i < input.length → (out[i]? = some none ↔ input[i]? = some none) := by
  rcases hre : Regex.new pattern with e | re
  · rw [regexp_extract_eq_error input pattern gi e hre] at h
    exact absurd h (by simp)
  · rw [regexp_extract_eq_ok input pattern gi re hre] at h
    injection h with h
    subst h
    refine ⟨by simp, ?_⟩
    intro i hi
    rw [List.getElem?_map]
    rcases input[i]? with _ | o
    · simp
    · rcases o with _ | v <;> simp

/-- Witness for C1 at input `[some "ab", none]`, pattern `"a"`, group 0. -/
theorem regexp_extract_preserves_length_and_nulls_witness :
    ([some "a", none] : List (Option String)).length =
      ([some "ab", none] : List (Option String)).length :=
  (regexp_extract_preserves_length_and_nulls [some "ab", none] "a" 0 [some "a", none] (by rfl)).1

/-- C2: a non-null input row on which the compiled pattern finds no match
yields the empty string, never null, in the output column. -/
theorem regexp_extract_no_match_empty
    (input : List (Option String)) (pattern : String) (gi : Nat) (re : Regex)
    (out : List (Option String)) (i : Nat) (v : String)
    (hre : Regex.new pattern = Except.ok re)
    (h : regexp_extract input pattern gi = Except.ok out)
    (hv : input[i]? = some (some v))
    (hnm : captures re v = none) :
    out[i]? = some (some "") := by
  rw [regexp_extract_eq_ok input pattern gi re hre] at h
  injection h with h
  subst h
  rw [List.getElem?_map, hv]
  simp [extractRow, hnm]

/-- Witness for C2 at input `[some "b"]`, pattern `"a"`, group 0. -/
theorem regexp_extract_no_match_empty_witness :
    (([some ""] : List (Option String)))[0]? = some (some "") :=
  regexp_extract_no_match_empty [some "b"] "a" 0 (Regex.cls false [ClsItem.single 'a'])
    [some ""] 0 "b" (by rfl) (by rfl) (by rfl) (by rfl)

/-- C6: when the pattern fails to compile, `regexp_extract` returns the
compilation error and produces no output rows at all (the single `Regex.new`
call gates the whole per-row pass). -/
theorem regexp_extract_compile_error_aborts
    (input : List (Option String)) (pattern : String) (gi : Nat) (e : String)
    (hre : Regex.new pattern = Except.error e) :
    regexp_extract input pattern gi = Except.error e :=
  regexp_extract_eq_error input pattern gi e hre

/-- Witness for C6 at the malformed pattern `"("`. -/
theorem regexp_extract_compile_error_aborts_witness :
    regexp_extract [some "x"] "(" 0 = Except.error "unclosed group" :=
  regexp_extract_compile_error_aborts [some "x"] "(" 0 "unclosed group" (by rfl)

/-- C7: once pattern compilation succeeds the call is total — for every input
column and every group index (arbitrarily large), `regexp_extract` returns
`Except.ok` of exactly the per-row extraction mapped over the rows, with no
per-row failure path. -/
theorem regexp_extract_total_after_compile
    (input : List (Option String)) (pattern : String) (gi : Nat) (re : Regex)
    (hre : Regex.new pattern = Except.ok re) :
    regexp_extract input pattern gi =
      Except.ok (input.map fun optional_data => optional_data.map fun d => extractRow re gi d) :=
  regexp_extract_eq_ok input pattern gi re hre

/-- Witness for C7 with the huge group index 99. -/
theorem regexp_extract_total_after_compile_witness :
    regexp_extract [some "a", none] "a" 99 =
      Except.ok (([some "a", none] : List (Option String)).map fun optional_data =>
        optional_data.map fun d => extractRow (Regex.cls false [ClsItem.single 'a']) 99 d) :=
  regexp_extract_total_after_compile [some "a", none] "a" 99
    (Regex.cls false [ClsItem.single 'a']) (by rfl)

/-- C8: `regexp_extract` is deterministic — two invocations with identical
input column, pattern text, and group index yield identical results; nothing
outside the three arguments is consulted. -/
theorem regexp_extract_deterministic
    (input₁ input₂ : List (Option String)) (p₁ p₂ : String) (g₁ g₂ : Nat)
    (hi : input₁ = input₂) (hp : p₁ = p₂) (hg : g₁ = g₂) :
    regexp_extract input₁ p₁ g₁ = regexp_extract input₂ p₂ g₂ := by
  subst hi
  subst hp
  subst hg
  rfl

/-- Witness for C8 at a concrete invocation. -/
theorem regexp_extract_deterministic_witness :
    regexp_extract [some "hello123"] "([a-z]+)(\\d+)" 1 =
      regexp_extract [some "hello123"] "([a-z]+)(\\d+)" 1 :=
  regexp_extract_deterministic [some "hello123"] [some "hello123"]
    "([a-z]+)(\\d+)" "([a-z]+)(\\d+)" 1 1 rfl rfl rfl

/-- C9: the concrete scenario from the spec and the source's basic test:
extracting groups 1 and 2 of `([a-z]+)(\d+)` from
`["hello123", "world456", null]`. -/
theorem regexp_extract_concrete_hello_world :
    regexp_extract [some "hello123", some "world456", none] "([a-z]+)(\\d+)" 1 =
      Except.ok [some "hello", some "world", none] ∧
    regexp_extract [some "hello123", some "world456", none] "([a-z]+)(\\d+)" 2 =
      Except.ok [some "123", some "456", none] :=
  ⟨by rfl, by rfl⟩

/-! ### Capture slots only mention groups of the pattern (for C3) -/

/-- All recorded capture slots name group numbers at most `B`. -/
def slotsBounded (B : Nat) (sl : Slots) : Prop := ∀ q ∈ sl, q.1 ≤ B

/-- The matcher only writes capture slots for groups occurring in the regex:
if the incoming slots are bounded by `B ≥ e.maxGroup` and the continuation
preserves boundedness, the resulting slots are bounded by `B`. -/
lemma mre_slotsBounded (B : Nat) :
    ∀ (fuel : Nat) (e : Regex) (s : List Char) (pos : Nat) (slots : Slots)
      (k : Nat → Slots → Option (Nat × Slots)),
      e.maxGroup ≤ B →
      slotsBounded B slots →
      (∀ p' sl' r, slotsBounded B sl' → k p' sl' = some r → slotsBounded B r.2) →
      ∀ r, mre fuel e s pos slots k = some r → slotsBounded B r.2 := by
  intro fuel
  induction fuel with
  | zero =>
    intro e s pos slots k _ _ _ r h
    simp [mre] at h
  | succ fuel ih =>
    intro e s pos slots k hB hsl hk r h
    cases e with
    | eps =>
      simp only [mre] at h
      exact hk _ _ _ hsl h
    | cls neg items =>
      simp only [mre] at h
      rcases hsc : s.get? pos with _ | c
      · rw [hsc] at h
        have h' : (none : Option (Nat × Slots)) = some r := h
        exact absurd h' (by simp)
      · rw [hsc] at h
        have h' : (if clsTest neg items c then k (pos + 1) slots else none) = some r := h
        by_cases hct : clsTest neg items c
        · rw [if_pos hct] at h'
          exact hk _ _ _ hsl h'
        · rw [if_neg hct] at h'
          exact absurd h' (by simp)
    | anyc =>
      simp only [mre] at h
      rcases hsc : s.get? pos with _ | c
      · rw [hsc] at h
        have h' : (none : Option (Nat × Slots)) = some r := h
        exact absurd h' (by simp)
      · rw [hsc] at h
        have h' : (if c == '\n' then none else k (pos + 1) slots) = some r := h
        by_cases hnl : (c == '\n') = true
        · rw [if_pos hnl] at h'
          exact absurd h' (by simp)
        · rw [if_neg hnl] at h'
          exact hk _ _ _ hsl h'
    | concat e1 e2 =>
      simp only [Regex.maxGroup, max_le_iff] at hB
      simp only [mre] at h
      exact ih e1 s pos slots _ hB.1 hsl
        (fun p' sl' r' hsl' hk' => ih e2 s p' sl' k hB.2 hsl' hk r' hk') r h
    | alt e1 e2 =>
      simp only [Regex.maxGroup, max_le_iff] at hB
      simp only [mre] at h
      rcases hsplit : mre fuel e1 s pos slots k with _ | r0
      · rw [hsplit] at h
        exact ih e2 s pos slots k hB.2 hsl hk r h
      · rw [hsplit] at h
        have h' : some r0 = some r := h
        injection h' with h'
        subst h'
        exact ih e1 s pos slots k hB.1 hsl hk r0 hsplit
    | star e1 =>
      simp only [Regex.maxGroup] at hB
      simp only [mre] at h
      rcases hsplit : mre fuel e1 s pos slots
          (fun p' sl' => if pos < p' then mre fuel (Regex.star e1) s p' sl' k else none)
          with _ | r0
      · rw [hsplit] at h
        exact hk _ _ _ hsl h
      · rw [hsplit] at h
        have h' : some r0 = some r := h
        injection h' with h'
        subst h'
        refine ih e1 s pos slots _ hB hsl ?_ r0 hsplit
        intro p' sl' r' hsl' hk'
        by_cases hp : pos < p'
        · rw [if_pos hp] at hk'
          exact ih (Regex.star e1) s p' sl' k hB hsl' hk r' hk'
        · rw [if_neg hp] at hk'
          exact absurd hk' (by simp)
    | plus e1 =>
      simp only [Regex.maxGroup] at hB
      simp only [mre] at h
      refine ih e1 s pos slots _ hB hsl ?_ r h
      intro p' sl' r' hsl' hk'
      exact ih (Regex.star e1) s p' sl' k hB hsl' hk r' hk'
    | opt e1 =>
      simp only [Regex.maxGroup] at hB
      simp only [mre] at h
      rcases hsplit : mre fuel e1 s pos slots k with _ | r0
      · rw [hsplit] at h
        exact hk _ _ _ hsl h
      · rw [hsplit] at h
        have h' : some r0 = some r := h
        injection h' with h'
        subst h'
        exact ih e1 s pos slots k hB hsl hk r0 hsplit
    | group n e1 =>
      simp only [Regex.maxGroup, max_le_iff] at hB
      simp only [mre] at h
      refine ih e1 s pos slots _ hB.2 hsl ?_ r h
      intro p' sl' r' hsl' hk'
      refine hk _ _ _ ?_ hk'
      intro q hq
      rcases List.mem_cons.mp hq with hq | hq
      · subst hq
        exact hB.1
      · exact hsl' q hq

/-- Slots of a successful anchored attempt are bounded by the regex's largest
group number. -/
lemma searchAt_slotsBounded (re : Regex) (cs : List Char) (st en : Nat) (sl : Slots)
    (h : searchAt re cs st = some (en, sl)) : slotsBounded re.maxGroup sl := by
  refine mre_slotsBounded re.maxGroup _ re cs st [] _ le_rfl ?_ ?_ (en, sl) h
  · intro q hq
    exact absurd hq (List.not_mem_nil q)
  · intro p' sl' r hsl' hk
    injection hk with hk
    subst hk
    exact hsl'

/-- Slots of a successful unanchored search are bounded by the regex's
largest group number. -/
lemma searchFrom_slotsBounded (re : Regex) (cs : List Char) :
    ∀ (rem st : Nat) (caps : Captures), searchFrom re cs rem st = some caps →
      slotsBounded re.maxGroup caps.slots := by
  intro rem
  induction rem with
  | zero =>
    intro st caps h
    simp [searchFrom] at h
  | succ rem ih =>
    intro st caps h
    simp only [searchFrom] at h
    rcases hsa : searchAt re cs st with _ | ⟨en, sl⟩
    · rw [hsa] at h
      exact ih (st + 1) caps h
    · rw [hsa] at h
      have h' : some (⟨st, en, sl⟩ : Captures) = some caps := h
      injection h' with h'
      subst h'
      exact searchAt_slotsBounded re cs st en sl hsa

/-- Looking up a group number larger than every recorded slot finds
nothing. -/
lemma lookup_none_of_slotsBounded (B gi : Nat) (hlt : B < gi) :
    ∀ sl : Slots, slotsBounded B sl → sl.lookup gi = none := by
  intro sl
  induction sl with
  | nil => intro _; rfl
  | cons q t ih =>
    intro hb
    rcases q with ⟨n, p⟩
    have hn : n ≤ B := hb (n, p) (List.mem_cons_self _ _)
    have hne : (gi == n) = false := by
      simp only [beq_eq_false_iff_ne, ne_eq]
      omega
    simp only [List.lookup, hne]
    exact ih fun q hq => hb q (List.mem_cons_of_mem _ hq)

/-- A group index strictly above the largest group number of the pattern
never resolves. -/
lemma captures_get_none_of_gt_maxGroup (re : Regex) (v : String) (caps : Captures) (gi : Nat)
    (hc : captures re v = some caps) (hgi : re.maxGroup < gi) :
    caps.get v.data gi = none := by
  have hb : slotsBounded re.maxGroup caps.slots :=
    searchFrom_slotsBounded re v.data _ _ caps hc
  unfold Captures.get
  rw [if_neg (by omega)]
  rw [lookup_none_of_slotsBounded re.maxGroup gi hgi caps.slots hb]
  rfl

/-- C3: on a matching non-null row, a group index that exceeds the number of
capture groups of the pattern (its largest group number, since groups are
numbered consecutively from 1), or that names a group which did not
participate in this particular match, yields the empty string. -/
theorem regexp_extract_unresolved_group_empty
    (input : List (Option String)) (pattern : String) (gi : Nat) (re : Regex)
    (out : List (Option String)) (i : Nat) (v : String) (caps : Captures)
    (hre : Regex.new pattern = Except.ok re)
    (h : regexp_extract input pattern gi = Except.ok out)
    (hv : input[i]? = some (some v))
    (hc : captures re v = some caps)
    (hg : re.maxGroup < gi ∨ caps.get v.data gi = none) :
    out[i]? = some (some "") := by
  have hget : caps.get v.data gi = none :=
    hg.elim (captures_get_none_of_gt_maxGroup re v caps gi hc) id
  rw [regexp_extract_eq_ok input pattern gi re hre] at h
  injection h with h
  subst h
  rw [List.getElem?_map, hv]
  simp [extractRow, hc, hget]

/-- Witness for C3 at the source's out-of-range-group test: pattern
`(\w+)`, group 99, on `"test123"`. -/
theorem regexp_extract_unresolved_group_empty_witness :
    (([some "", some ""] : List (Option String)))[1]? = some (some "") :=
  regexp_extract_unresolved_group_empty [some "x", some "test123"] "(\\w+)" 99
    (Regex.group 1 (Regex.plus (Regex.cls false
      [ClsItem.range 'a' 'z', ClsItem.range 'A' 'Z', ClsItem.range '0' '9', ClsItem.single '_'])))
    [some "", some ""] 1 "test123" ⟨0, 7, [(1, 0, 7)]⟩
    (by rfl) (by rfl) (by rfl) (by rfl)
    (Or.inl (by decide))

/-! ### Leftmost search (for C4) -/

/-- The unanchored search returns the leftmost start position admitting a
match: every earlier candidate position fails. -/
lemma searchFrom_leftmost (re : Regex) (cs : List Char) :
    ∀ (rem st : Nat) (caps : Captures), searchFrom re cs rem st = some caps →
      st ≤ caps.start ∧ ∀ j : Nat, st ≤ j → j < caps.start → searchAt re cs j = none := by
  intro rem
  induction rem with
  | zero =>
    intro st caps h
    simp [searchFrom] at h
  | succ rem ih =>
    intro st caps h
    simp only [searchFrom] at h
    rcases hsa : searchAt re cs st with _ | ⟨en, sl⟩
    · rw [hsa] at h
      obtain ⟨h1, h2⟩ := ih (st + 1) caps h
      refine ⟨by omega, ?_⟩
      intro j hj1 hj2
      rcases Nat.eq_or_lt_of_le hj1 with hj | hj
      · rw [← hj]
        exact hsa
      · exact h2 j hj hj2
    · rw [hsa] at h
      have h' : some (⟨st, en, sl⟩ : Captures) = some caps := h
      injection h' with h'
      subst h'
      exact ⟨le_rfl, fun j hj1 hj2 => absurd hj2 (Nat.not_lt.mpr hj1)⟩

/-- Every position left of the start of the overall match fails to match. -/
lemma captures_leftmost (re : Regex) (v : String) (caps : Captures)
    (hc : captures re v = some caps) :
    ∀ j : Nat, j < caps.start → searchAt re v.data j = none :=
  fun j hj => (searchFrom_leftmost re v.data _ 0 caps hc).2 j (Nat.zero_le j) hj

/-- C4: on a matching non-null row the search is leftmost (every earlier
start position fails), group index 0 resolves to the full matched substring,
and the output value is exactly the text the requested group captured. -/
theorem regexp_extract_match_group_semantics
    (input : List (Option String)) (pattern : String) (gi : Nat) (re : Regex)
    (out : List (Option String)) (i : Nat) (v : String) (caps : Captures)
    (hre : Regex.new pattern = Except.ok re)
    (h : regexp_extract input pattern gi = Except.ok out)
    (hv : input[i]? = some (some v))
    (hc : captures re v = some caps) :
    (∀ j : Nat, j < caps.start → searchAt re v.data j = none) ∧
    caps.get v.data 0 = some (strSlice v.data caps.start caps.stop) ∧
    out[i]? = some (some ((caps.get v.data gi).getD "")) := by
  refine ⟨captures_leftmost re v caps hc, ?_, ?_⟩
  · unfold Captures.get
    rw [if_pos rfl]
  · rw [regexp_extract_eq_ok input pattern gi re hre] at h
    injection h with h
    subst h
    rw [List.getElem?_map, hv]
    simp [extractRow, hc]

/-- Witness for C4: pattern `a` on `"ba"` matches at position 1, group 0. -/
theorem regexp_extract_match_group_semantics_witness :
    (([some "a"] : List (Option String)))[0]? =
      some (some (((⟨1, 2, []⟩ : Captures).get "ba".data 0).getD "")) :=
  (regexp_extract_match_group_semantics [some "ba"] "a" 0
    (Regex.cls false [ClsItem.single 'a']) [some "a"] 0 "ba" ⟨1, 2, []⟩
    (by rfl) (by rfl) (by rfl) (by rfl)).2.2

/-! ### Adapter claims (C5, C10) -/

/-- C5: any argument list violating the arity or positional-type contract —
not exactly 3 arguments, position 0 not a string array, position 1 not a
single non-null text scalar, or position 2 not a single non-null unsigned
integer scalar — makes the invoked UDF report an error, with no output column
(and hence no row) produced. -/
theorem udf_rejects_invalid_arguments (args : List ColumnarValue)
    (h : args.length ≠ 3 ∨
      (∀ rows, args[0]? ≠ some (ColumnarValue.array (ArrowArray.strings rows))) ∨
      (∀ s, args[1]? ≠ some (ColumnarValue.scalar (ScalarValue.utf8 (some s)))) ∨
      (∀ n, args[2]? ≠ some (ColumnarValue.scalar (ScalarValue.uint32 (some n))))) :
    ∃ e, invokeUDF create_regexp_extract args = Except.error e := by
  by_cases hty : args.map ColumnarValue.dataType = create_regexp_extract.input_types
  · simp only [invokeUDF, if_pos hty]
    show ∃ e, regexp_extract_impl args = Except.error e
    rcases args with _ | ⟨a, args⟩
    · simp [create_regexp_extract] at hty
    rcases args with _ | ⟨b, args⟩
    · simp [create_regexp_extract] at hty
    rcases args with _ | ⟨c, args⟩
    · simp [create_regexp_extract] at hty
    rcases args with _ | ⟨d, rest⟩
    swap
    · simp [create_regexp_extract] at hty
    rcases a with arr | sv
    swap
    · exact ⟨_, rfl⟩
    rcases arr with rows | dt
    swap
    · exact ⟨_, rfl⟩
    rcases b with arr2 | sv2
    · exact ⟨_, rfl⟩
    rcases sv2 with os | nn | dt2
    rotate_left
    · exact ⟨_, rfl⟩
    · exact ⟨_, rfl⟩
    rcases os with _ | s
    · exact ⟨_, rfl⟩
    rcases c with arr3 | sv3
    · exact ⟨_, rfl⟩
    rcases sv3 with os3 | nn3 | dt3
    · exact ⟨_, rfl⟩
    swap
    · exact ⟨_, rfl⟩
    rcases nn3 with _ | n
    · exact ⟨_, rfl⟩
    exfalso
    rcases h with h | h | h | h
    · exact h (by simp)
    · exact h rows rfl
    · exact h s rfl
    · exact h n rfl
  · exact ⟨"arguments do not match the declared function signature",
      by simp only [invokeUDF, if_neg hty]⟩

/-- Witness for C5 at the empty argument list. -/
theorem udf_rejects_invalid_arguments_witness :
    ∃ e, invokeUDF create_regexp_extract [] = Except.error e :=
  udf_rejects_invalid_arguments [] (Or.inl (by decide))

/-- C10: a scalar at position 0 — for example a constant string a
constant-folding host might pass — is rejected with an execution error rather
than treated as a one-row column, and likewise an array of any non-string
type; only an array that downcasts to a string array is accepted. -/
theorem regexp_extract_impl_rejects_scalar_input :
    (∀ (v : ScalarValue) (rest : List ColumnarValue),
        regexp_extract_impl (ColumnarValue.scalar v :: rest) =
          Except.error "Expected StringArray") ∧
    (∀ (dt : DataType) (rest : List ColumnarValue),
        regexp_extract_impl (ColumnarValue.array (ArrowArray.other dt) :: rest) =
          Except.error "Expected StringArray") :=
  ⟨fun _ _ => rfl, fun _ _ => rfl⟩

/-- The further concrete scenarios of the source's test module, recorded as a
single regression theorem: no-match rows, optional groups, special
characters, the empty input string, and ranges. -/
theorem regexp_extract_source_tests :
    regexp_extract [some "hello123", some "world456", none] "([a-z]+)(\\d+)" 0 =
      Except.ok [some "hello123", some "world456", none] ∧
    regexp_extract [some "abc", some "def"] "\\d+" 0 = Except.ok [some "", some ""] ∧
    regexp_extract [some "test123"] "(\\w+)" 99 = Except.ok [some ""] ∧
    regexp_extract [some "abc123", some "def", some "456"] "([a-z]+)?(\\d+)?" 1 =
      Except.ok [some "abc", some "def", some ""] ∧
    regexp_extract [some "abc123", some "def", some "456"] "([a-z]+)?(\\d+)?" 2 =
      Except.ok [some "123", some "", some "456"] ∧
    regexp_extract [some "test.123", some "test-456", some "test_789"] "test(.)(\\d+)" 1 =
      Except.ok [some ".", some "-", some "_"] ∧
    regexp_extract [some ""] ".*" 0 = Except.ok [some ""] ∧
    regexp_extract [some "100-200"] "(\\d+)-(\\d+)" 1 = Except.ok [some "100"] ∧
    regexp_extract [some "foo"] "(\\d+)" 1 = Except.ok [some ""] ∧
    regexp_extract [some "aaaac"] "(a+)(b)?(c)" 2 = Except.ok [some ""] :=
  ⟨by rfl, by rfl, by rfl, by rfl, by rfl, by rfl, by rfl, by rfl, by rfl, by rfl⟩
